import Mathlib

/-!
Verification of the bithumb_trade repository (trader/utils.py, trader/strategy.py,
run.py) against its natural-language specification.

Embedding conventions:
* Python floats are modelled as exact rationals (ℚ); the claims are statements of
  real arithmetic and all concrete inputs used below are exactly representable.
* Python `round(x, 8)` (banker's rounding to 8 decimal digits) is modelled by
  `round8`, built from `rhe`, round-half-to-even to an integer.
* Python `int(x)` (truncation toward zero) is modelled by `pyInt`.
* Division by zero yields 0 in ℚ where Python would raise `ZeroDivisionError`;
  every such site in the code sits under a `try`/`except` boundary that the
  error-propagation model (`roundLoopBody`) accounts for, so the distinction
  does not affect any claim proved here.
-/

namespace BithumbTrade

/-- Round-half-to-even of a rational to an integer (Python's `round(x)` on exact
values). -/
def rhe (x : ℚ) : ℤ :=
  if x - ⌊x⌋ < 1/2 then ⌊x⌋
  else if 1/2 < x - ⌊x⌋ then ⌊x⌋ + 1
  else if ⌊x⌋ % 2 = 0 then ⌊x⌋ else ⌊x⌋ + 1

/-- Python `round(x, 8)`: round to 8 decimal digits, half to even. -/
def round8 (x : ℚ) : ℚ := (rhe (x * 10^8) : ℚ) / 10^8

/-- Python `int(x)`: truncation toward zero. -/
def pyInt (x : ℚ) : ℤ := if 0 ≤ x then ⌊x⌋ else ⌈x⌉

theorem rhe_le (x : ℚ) : (rhe x : ℚ) ≤ x + 1/2 := by
  have hf : (⌊x⌋ : ℚ) ≤ x := Int.floor_le x
  unfold rhe
  split_ifs <;> push_cast <;> linarith

theorem le_rhe (x : ℚ) : x - 1/2 ≤ (rhe x : ℚ) := by
  have hf : x - 1 < (⌊x⌋ : ℚ) := Int.sub_one_lt_floor x
  unfold rhe
  split_ifs <;> push_cast <;> linarith

theorem rhe_nonneg (x : ℚ) (hx : 0 ≤ x) : 0 ≤ rhe x := by
  have hf : (0 : ℤ) ≤ ⌊x⌋ := Int.floor_nonneg.mpr hx
  unfold rhe
  split_ifs <;> omega

theorem rhe_intCast (n : ℤ) : rhe (n : ℚ) = n := by
  unfold rhe
  rw [Int.floor_intCast]
  norm_num

theorem round8_le (x : ℚ) : round8 x ≤ x + 1/(2 * 10^8) := by
  have h := rhe_le (x * 10^8)
  unfold round8
  rw [div_le_iff₀ (by norm_num : (0:ℚ) < 10^8)]
  linarith

theorem le_round8 (x : ℚ) : x - 1/(2 * 10^8) ≤ round8 x := by
  have h := le_rhe (x * 10^8)
  unfold round8
  rw [le_div_iff₀ (by norm_num : (0:ℚ) < 10^8)]
  linarith

theorem round8_nonneg (x : ℚ) (hx : 0 ≤ x) : 0 ≤ round8 x := by
  have h := rhe_nonneg (x * 10^8) (by positivity)
  unfold round8
  positivity

/-- `round8` is exact on multiples of `10⁻⁸`. -/
theorem round8_eq_self (x : ℚ) (n : ℤ) (hn : x * 10^8 = (n : ℚ)) : round8 x = x := by
  unfold round8
  rw [hn, rhe_intCast, ← hn]
  field_simp

theorem round8_idem (x : ℚ) : round8 (round8 x) = round8 x := by
  apply round8_eq_self _ (rhe (x * 10^8))
  unfold round8
  field_simp

-- =========================
-- trader/utils.py
-- =========================

/-- `FEE_RATE = 0.0004` (utils.py line 9). -/
def FEE_RATE : ℚ := 4/10000

/-- Tick-size table `get_order_unit` (utils.py lines 34-58). -/
def get_order_unit (price : ℚ) : ℚ :=
  if 2000000 ≤ price then 1000
  else if 1000000 ≤ price then 500
  else if 500000 ≤ price then 100
  else if 100000 ≤ price then 50
  else if 10000 ≤ price then 10
  else if 1000 ≤ price then 5
  else if 100 ≤ price then 1
  else if 10 ≤ price then 1/10
  else if 1 ≤ price then 1/100
  else 1/1000

/-- `round_down` (utils.py lines 61-66): floor to a multiple of `unit`, then
round the product to 8 decimals; identity when `unit = 0`. -/
def round_down (x unit : ℚ) : ℚ :=
  if unit = 0 then x else round8 ((⌊x / unit⌋ : ℚ) * unit)

/-- `min_volume_for_krw` (utils.py lines 69-76). -/
def min_volume_for_krw (min_total_krw price : ℚ) : ℚ :=
  if price ≤ 0 then 0 else round8 (min_total_krw / price)

/-- `effective_pnl_pct` (utils.py lines 79-88). -/
def effective_pnl_pct (current_price avg_price fee_rate : ℚ) : ℚ :=
  if avg_price ≤ 0 then 0
  else (current_price * (1 - fee_rate) - avg_price * (1 + fee_rate))
        / (avg_price * (1 + fee_rate)) * 100

theorem get_order_unit_bounds (price : ℚ) :
    1/1000 ≤ get_order_unit price ∧ get_order_unit price ≤ 1000 := by
  unfold get_order_unit
  split_ifs <;> norm_num

/-- One execution trace of `retry` (utils.py lines 14-31), attempting the calls
`out i, out (i+1), ...` with `fuel` attempts remaining and current `delay`.
Returns the final result (`Except.error none` models `RetryError(None)`,
`Except.error (some e)` models `RetryError(e)`), the number of invocations of
the operation, and the list of sleep durations in order. The Python guard
`i == tries - 1` holds exactly when `fuel = 1`, i.e. the remaining count after
the current attempt is 0. -/
def retryAux {α E : Type} (out : ℕ → Except E α) (backoff : ℚ) :
    ℕ → ℕ → ℚ → Except (Option E) α × ℕ × List ℚ
  | _, 0, _ => (Except.error none, 0, [])
  | i, fuel+1, delay =>
    match out i with
    | Except.ok a => (Except.ok a, 1, [])
    | Except.error e =>
      if fuel = 0 then (Except.error (some e), 1, [])
      else
        let r := retryAux out backoff (i+1) fuel (delay * backoff)
        (r.1, r.2.1 + 1, delay :: r.2.2)

/-- `retry(fn, tries, delay, backoff)` (utils.py lines 14-31). `out i` is the
outcome of the `i`-th invocation of `fn`; `tries` is an arbitrary integer as in
Python, and `range(tries)` is empty for `tries ≤ 0`. -/
def retry {α E : Type} (out : ℕ → Except E α) (tries : ℤ) (delay backoff : ℚ) :
    Except (Option E) α × ℕ × List ℚ :=
  retryAux out backoff 0 tries.toNat delay

-- =========================
-- trader/strategy.py
-- =========================

/-- `BASE_AMOUNT = 5000.0` (strategy.py line 18). -/
def BASE_AMOUNT : ℚ := 5000

/-- Pre-correction buy amount (strategy.py lines 65-80): linear scale-up with
drawdown, clamped to [0%, 5%] mapped onto multiplier [1, 2]. -/
def buyAmountRaw (coin_avail_for_sell avg_buy_price cur_price : ℚ) : ℚ :=
  if 0 < coin_avail_for_sell ∧ 0 < avg_buy_price then
    if cur_price < avg_buy_price then
      BASE_AMOUNT * (1 + max 0 (min ((avg_buy_price - cur_price) / avg_buy_price * 100) 5) / 5)
    else BASE_AMOUNT
  else BASE_AMOUNT

/-- Amount after the `min_total` floor (strategy.py lines 83-85): the rounded
whole-currency amount `float(int(round(amount)))`, replaced by
`float(int(min_total))` when below `min_total`. -/
def adjustStage1 (amount min_total : ℚ) : ℚ :=
  if (rhe amount : ℚ) < min_total then (pyInt min_total : ℚ) else (rhe amount : ℚ)

/-- Amount correction (strategy.py lines 82-91): round to a whole-currency
amount via `float(int(round(amount)))`, floor to `float(int(min_total))` when
below `min_total`, cap to `float(int(krw_avail))` when above the available
balance, and skip (`none`) when the capped amount is still below `min_total`. -/
def adjustAmount (amount min_total krw_avail : ℚ) : Option ℚ :=
  if krw_avail < adjustStage1 amount min_total then
    if (pyInt krw_avail : ℚ) < min_total then none
    else some (pyInt krw_avail : ℚ)
  else some (adjustStage1 amount min_total)

/-- `limit_price` before any correction (strategy.py lines 94-95): one tick
below the current price, floored to the tick. -/
def buyLimitPrice0 (cur_price : ℚ) : ℚ :=
  round_down (cur_price - get_order_unit cur_price) (get_order_unit cur_price)

/-- `volume` before any correction (strategy.py line 99). -/
def buyVolume0 (cur_price amount : ℚ) : ℚ :=
  round8 (amount / max (buyLimitPrice0 cur_price) (1/10^12))

/-- `limit_price` after the first correction (strategy.py lines 103-107):
replaced by the raw current price when the total is below `min_total`. -/
def buyPrice1 (cur_price amount min_total : ℚ) : ℚ :=
  if buyLimitPrice0 cur_price * buyVolume0 cur_price amount < min_total then cur_price
  else buyLimitPrice0 cur_price

/-- `volume` after the first correction (strategy.py lines 103-107). -/
def buyVolume1 (cur_price amount min_total : ℚ) : ℚ :=
  if buyLimitPrice0 cur_price * buyVolume0 cur_price amount < min_total then
    round8 (amount / cur_price)
  else buyVolume0 cur_price amount

/-- Limit-order price and volume for the buy path (strategy.py lines 93-115):
price one tick below market (floored to the tick), volume from `amount`;
if the resulting total is below `min_total`, recompute at the raw current
price; if the total is still at or below `min_total`, recompute the volume
from `min_total + 10`. Returns `(limit_price, volume)` as submitted. -/
def buyOrderParams (cur_price amount min_total : ℚ) : ℚ × ℚ :=
  if buyPrice1 cur_price amount min_total * buyVolume1 cur_price amount min_total
      ≤ min_total then
    (buyPrice1 cur_price amount min_total,
     round8 ((min_total + 10) / buyPrice1 cur_price amount min_total))
  else (buyPrice1 cur_price amount min_total, buyVolume1 cur_price amount min_total)

/-- Outcome of the sell decision (strategy.py lines 150-194): either no order,
or a market sell of the given volume. -/
inductive SellAction : Type
  | skip : SellAction
  | submit : ℚ → SellAction
deriving DecidableEq

/-- `perform_sell` decision logic (strategy.py lines 158-190): skip without a
position or below target PnL; sell 10% of the balance, raised to the
minimum-notional volume when the estimated total is below `min_total`,
skipping when that raised volume exceeds the balance. -/
def sellDecision (cur_price avg_buy_price coin_balance min_total take_profit_pct : ℚ) :
    SellAction :=
  if coin_balance ≤ 0 ∨ avg_buy_price ≤ 0 then SellAction.skip
  else if effective_pnl_pct cur_price avg_buy_price FEE_RATE < take_profit_pct then
    SellAction.skip
  else if round8 (coin_balance * (10/100)) * cur_price < min_total then
    if min_volume_for_krw min_total cur_price ≤ coin_balance then
      SellAction.submit (round8 (min_volume_for_krw min_total cur_price))
    else SellAction.skip
  else SellAction.submit (round8 (coin_balance * (10/100)))

-- =========================
-- run.py round loop (error propagation model)
-- =========================

/-- The fields of the `get_order_chance` response that the strategy reads. -/
structure Chance : Type where
  bid_min_total : ℚ
  bid_balance : ℚ
  ask_avg_buy_price : ℚ
  ask_balance : ℚ
  ask_min_total : ℚ

/-- One round's worth of exchange-collaborator behavior: the outcome of each
external call site, in program order. A value `Except.error e` models the call
raising `e` (for the retried sites, a `RetryError` after exhaustion; for the
direct `get_order` call at strategy.py line 136, the underlying exception). -/
structure ExchangeRound (E : Type) : Type where
  sell_price : Except E ℚ
  sell_chance : Except E Chance
  sell_order : Except E Unit
  buy_price : Except E ℚ
  buy_chance : Except E Chance
  buy_limit_order : Except E Unit
  buy_order_done : Except E Bool
  buy_cancel : Except E Unit
  buy_market_order : Except E Unit
  buy_filled_info : Except E (ℚ × ℚ)
  buy_price2 : Except E ℚ
  sum_chance : Except E Chance
  sum_price : Except E ℚ

/-- `perform_sell` (strategy.py lines 150-194): the price and chance fetches
propagate failures; the order submission (lines 189-194) sits in its own
`try`/`except` and never propagates. -/
def performSellM {E : Type} (b : ExchangeRound E) (take_profit_pct : ℚ) :
    Except E Unit := do
  let cur ← b.sell_price
  let ch ← b.sell_chance
  match sellDecision cur ch.ask_avg_buy_price ch.ask_balance ch.ask_min_total
      take_profit_pct with
  | SellAction.skip => pure ()
  | SellAction.submit _ =>
    match b.sell_order with
    | Except.ok _ => pure ()
    | Except.error _ => pure ()

/-- The `try` block of `perform_buy` (strategy.py lines 118-147): limit order,
completion check, and on incompletion cancel plus market-order fallback with
the follow-up fill query and price fetch. -/
def buyTryBlock {E : Type} (b : ExchangeRound E) : Except E Unit := do
  let _ ← b.buy_limit_order
  let done ← b.buy_order_done
  if done then pure ()
  else do
    let _ ← b.buy_cancel
    let _ ← b.buy_market_order
    let info ← b.buy_filled_info
    let cur2 ← b.buy_price2
    let _ := round8 ((info.1 + info.2) / max cur2 (1/10^12))
    pure ()

/-- `perform_buy` (strategy.py lines 47-147): the price and chance fetches
propagate failures; the whole order-placement block is wrapped in
`try`/`except` (line 146) and never propagates. -/
def performBuyM {E : Type} (b : ExchangeRound E) : Except E Unit := do
  let cur ← b.buy_price
  let ch ← b.buy_chance
  let raw := buyAmountRaw ch.ask_balance ch.ask_avg_buy_price cur
  match adjustAmount raw ch.bid_min_total ch.bid_balance with
  | none => pure ()
  | some amount =>
    let _ := buyOrderParams cur amount ch.bid_min_total
    match buyTryBlock b with
    | Except.ok _ => pure ()
    | Except.error _ => pure ()

/-- `trade_once` (strategy.py lines 197-210): sell, then buy, then the round
summary; it installs no exception handler of its own. -/
def tradeOnceM {E : Type} (b : ExchangeRound E) (take_profit_pct : ℚ) :
    Except E Unit := do
  performSellM b take_profit_pct
  performBuyM b
  let ch ← b.sum_chance
  let cur ← b.sum_price
  let _ := effective_pnl_pct cur ch.ask_avg_buy_price FEE_RATE
  pure ()

/-- One execution of the scheduling-loop body (run.py lines 43-47):
`trade_once` under `try`/`except Exception`, which logs and continues. -/
def roundLoopBody {E : Type} (b : ExchangeRound E) (take_profit_pct : ℚ) :
    Except E Unit :=
  match tradeOnceM b take_profit_pct with
  | Except.ok _ => Except.ok ()
  | Except.error _ => Except.ok ()

-- =========================
-- Helper lemmas
-- =========================

theorem round8_zero : round8 0 = 0 :=
  round8_eq_self 0 0 (by norm_num)

/-- Multiplying an 8-decimal-rounded quotient back by a positive divisor loses
at most half an ulp scaled by the divisor. -/
theorem mul_round8_div_ge (y p : ℚ) (hp : 0 < p) :
    y - p * (1/(2 * 10^8)) ≤ p * round8 (y / p) := by
  have h := le_round8 (y / p)
  have h2 : p * (y / p - 1/(2 * 10^8)) ≤ p * round8 (y / p) :=
    mul_le_mul_of_nonneg_left h (le_of_lt hp)
  have h3 : p * (y / p - 1/(2 * 10^8)) = y - p * (1/(2 * 10^8)) := by
    field_simp
    ring
  linarith

/-- Ten percent of a positive balance, rounded to 8 decimals, never exceeds
the balance. -/
theorem round8_tenth_le (b : ℚ) (hb : 0 < b) : round8 (b * (10/100)) ≤ b := by
  rcases lt_or_le b (5/10^8) with h | h
  · have harg0 : (0:ℚ) ≤ b * (10/100) * 10^8 := by positivity
    have harg1 : b * (10/100) * 10^8 < 1/2 := by nlinarith
    have hfl : ⌊b * (10/100) * 10^8⌋ = 0 :=
      Int.floor_eq_zero_iff.mpr ⟨harg0, by linarith⟩
    have hr : rhe (b * (10/100) * 10^8) = 0 := by
      unfold rhe
      rw [hfl]
      rw [if_pos (by push_cast; linarith)]
    unfold round8
    rw [hr]
    norm_num
    linarith
  · have h2 := round8_le (b * (10/100))
    linarith

/-- The tick-lowered limit price never exceeds the current price. -/
theorem buyLimitPrice0_le (cur_price : ℚ) : buyLimitPrice0 cur_price ≤ cur_price := by
  have ht := get_order_unit_bounds cur_price
  have htpos : 0 < get_order_unit cur_price := lt_of_lt_of_le (by norm_num) ht.1
  unfold buyLimitPrice0 round_down
  rw [if_neg (ne_of_gt htpos)]
  have hfl : ((⌊(cur_price - get_order_unit cur_price) / get_order_unit cur_price⌋ : ℚ))
      * get_order_unit cur_price ≤ cur_price - get_order_unit cur_price := by
    have h1 := Int.floor_le ((cur_price - get_order_unit cur_price) / get_order_unit cur_price)
    have h2 := mul_le_mul_of_nonneg_right h1 (le_of_lt htpos)
    rwa [div_mul_cancel₀ _ (ne_of_gt htpos)] at h2
  have h3 := round8_le (((⌊(cur_price - get_order_unit cur_price) / get_order_unit cur_price⌋ : ℚ))
      * get_order_unit cur_price)
  linarith [ht.1]

theorem max_min_swap (d : ℚ) : max 0 (min d 5) = min (max d 0) 5 := by
  rw [max_min_distrib_left, max_comm (0:ℚ) d]
  norm_num

theorem rhe_eq_floor (x : ℚ) (h : x - ⌊x⌋ < 1/2) : rhe x = ⌊x⌋ := by
  unfold rhe
  rw [if_pos h]

theorem rhe_eq_floor_add_one (x : ℚ) (h : 1/2 < x - ⌊x⌋) : rhe x = ⌊x⌋ + 1 := by
  unfold rhe
  rw [if_neg (by linarith), if_pos h]

/-- Evaluation rule for `round8` when the scaled value rounds down. -/
theorem round8_eval_lt (x : ℚ) (n : ℤ) (hfl : ⌊x * 10^8⌋ = n)
    (h : x * 10^8 - (n:ℚ) < 1/2) : round8 x = (n:ℚ)/10^8 := by
  unfold round8
  rw [rhe_eq_floor _ (by rw [hfl]; exact h), hfl]

/-- Evaluation rule for `round8` when the scaled value rounds up. -/
theorem round8_eval_gt (x : ℚ) (n : ℤ) (hfl : ⌊x * 10^8⌋ = n)
    (h : 1/2 < x * 10^8 - (n:ℚ)) : round8 x = ((n + 1 : ℤ):ℚ)/10^8 := by
  unfold round8
  rw [rhe_eq_floor_add_one _ (by rw [hfl]; exact h), hfl]

theorem round8_intCast (n : ℤ) : round8 (n:ℚ) = (n:ℚ) :=
  round8_eq_self _ (n * 10^8) (by push_cast; ring)

theorem round8_intDiv (n : ℤ) : round8 ((n:ℚ)/10^8) = (n:ℚ)/10^8 :=
  round8_eq_self _ n (by field_simp)

-- =========================
-- Claim theorems
-- =========================

/-- Claim C7: `effective_pnl_pct` returns exactly 0 for every `avg_price ≤ 0`,
and for every `avg_price > 0` returns
`(current*(1-fee) - avg*(1+fee)) / (avg*(1+fee)) * 100`, with the default fee
rate `FEE_RATE` fixed at 0.0004. -/
theorem claim_C7 (current_price avg_price fee_rate : ℚ) :
    (avg_price ≤ 0 → effective_pnl_pct current_price avg_price fee_rate = 0)
    ∧ (0 < avg_price → effective_pnl_pct current_price avg_price fee_rate =
        (current_price * (1 - fee_rate) - avg_price * (1 + fee_rate))
          / (avg_price * (1 + fee_rate)) * 100)
    ∧ FEE_RATE = 4/10000 := by
  refine ⟨fun h => ?_, fun h => ?_, rfl⟩
  · unfold effective_pnl_pct
    rw [if_pos h]
  · unfold effective_pnl_pct
    rw [if_neg (not_le.mpr h)]

/-- Witness for C7 at `avg_price = 0` and at `(100, 50, 0)`. -/
theorem claim_C7_witness :
    effective_pnl_pct 100 0 (4/10000) = 0
    ∧ effective_pnl_pct 100 50 0 =
        (100 * (1 - 0) - 50 * (1 + 0)) / (50 * (1 + 0)) * 100 :=
  ⟨(claim_C7 100 0 (4/10000)).1 (by norm_num), (claim_C7 100 50 0).2.1 (by norm_num)⟩

/-- Counterexample to C8 as stated: at `x = unit = 7·10⁻⁹`, `round_down`
returns `10⁻⁸`, which exceeds `x` (rounding `k·unit` to 8 decimals rounds up
when `unit` is below the 8-decimal grid). -/
theorem claim_C8_counterexample :
    round_down (7/10^9) (7/10^9) = 1/10^8 ∧ (7:ℚ)/10^9 < 1/10^8 := by
  constructor
  · unfold round_down
    rw [if_neg (by norm_num : (7/10^9 : ℚ) ≠ 0)]
    rw [show (7/10^9 : ℚ) / (7/10^9) = 1 by norm_num, Int.floor_one]
    rw [show ((1:ℤ):ℚ) * (7/10^9) = 7/10^9 by norm_num]
    rw [round8_eval_gt (7/10^9) 0 (by norm_num) (by norm_num)]
    norm_num
  · norm_num

/-- Claim C8 amended: for every `unit ≠ 0`, `round_down x unit` equals
`⌊x/unit⌋·unit` rounded to 8 decimal digits; when `unit` is moreover a
positive integer multiple of `10⁻⁸` (as every tick-table unit is), the
rounding is exact, so the result equals `⌊x/unit⌋·unit`, never exceeds `x`,
and is an integer multiple of `unit`; and `round_down x 0 = x`. -/
theorem claim_C8 (x unit : ℚ) :
    (unit ≠ 0 → round_down x unit = round8 ((⌊x / unit⌋ : ℚ) * unit))
    ∧ (∀ m : ℤ, 0 < m → unit = (m : ℚ)/10^8 →
        round_down x unit = (⌊x / unit⌋ : ℚ) * unit
        ∧ round_down x unit ≤ x
        ∧ ∃ k : ℤ, round_down x unit = (k : ℚ) * unit)
    ∧ round_down x 0 = x := by
  refine ⟨fun h => ?_, fun m hm hu => ?_, ?_⟩
  · unfold round_down
    rw [if_neg h]
  · have hmq : (0:ℚ) < (m:ℚ) := by exact_mod_cast hm
    have hupos : 0 < unit := by rw [hu]; positivity
    have hexact : round_down x unit = (⌊x / unit⌋ : ℚ) * unit := by
      unfold round_down
      rw [if_neg (ne_of_gt hupos)]
      apply round8_eq_self _ (⌊x / unit⌋ * m)
      rw [hu]
      push_cast
      field_simp
    refine ⟨hexact, ?_, ⟨⌊x / unit⌋, hexact⟩⟩
    rw [hexact]
    have h1 := Int.floor_le (x / unit)
    have h2 := mul_le_mul_of_nonneg_right h1 (le_of_lt hupos)
    rwa [div_mul_cancel₀ _ (ne_of_gt hupos)] at h2
  · unfold round_down
    rw [if_pos rfl]

/-- Witness for C8 at `x = 12.345`, `unit = 50` (= `50·10⁸ · 10⁻⁸`). -/
theorem claim_C8_witness :
    round_down (12345/1000) 50 = ((⌊(12345/1000 : ℚ) / 50⌋ : ℤ) : ℚ) * 50
    ∧ round_down (12345/1000) 50 ≤ 12345/1000
    ∧ ∃ k : ℤ, round_down (12345/1000) 50 = (k : ℚ) * 50 :=
  (claim_C8 (12345/1000) 50).2.1 (50 * 10^8) (by norm_num) (by norm_num)

/-- Claim C9: for every `price > 0`, `min_volume_for_krw` returns
`round(min_total/price, 8)` and the resulting notional is at least
`min_total` up to the 8-decimal rounding slack `price · 5·10⁻⁹`; for every
`price ≤ 0` it returns 0. -/
theorem claim_C9 (min_total price : ℚ) :
    (0 < price →
      min_volume_for_krw min_total price = round8 (min_total / price)
      ∧ min_total - price * (1/(2 * 10^8))
          ≤ min_volume_for_krw min_total price * price)
    ∧ (price ≤ 0 → min_volume_for_krw min_total price = 0) := by
  constructor
  · intro hp
    have heq : min_volume_for_krw min_total price = round8 (min_total / price) := by
      unfold min_volume_for_krw
      rw [if_neg (not_le.mpr hp)]
    refine ⟨heq, ?_⟩
    rw [heq, mul_comm (round8 (min_total / price)) price]
    exact mul_round8_div_ge min_total price hp
  · intro hp
    unfold min_volume_for_krw
    rw [if_pos hp]

/-- Witness for C9 at `(5000, 70000)` and `(5000, -3)`. -/
theorem claim_C9_witness :
    (min_volume_for_krw 5000 70000 = round8 ((5000:ℚ) / 70000)
      ∧ (5000:ℚ) - 70000 * (1/(2 * 10^8)) ≤ min_volume_for_krw 5000 70000 * 70000)
    ∧ min_volume_for_krw 5000 (-3) = 0 :=
  ⟨(claim_C9 5000 70000).1 (by norm_num), (claim_C9 5000 (-3)).2 (by norm_num)⟩

/-- Claim C10: calling `retry` with `tries ≤ 0` never invokes the operation,
never sleeps, and raises `RetryError(None)` (modelled as `Except.error none`)
rather than returning a value or an underlying error. -/
theorem claim_C10 {α E : Type} (out : ℕ → Except E α) (tries : ℤ)
    (delay backoff : ℚ) :
    tries ≤ 0 → retry out tries delay backoff = (Except.error none, 0, []) := by
  intro h
  unfold retry
  rw [Int.toNat_of_nonpos h]
  rfl

/-- Witness for C10 at `tries = -2` with an operation that would succeed. -/
theorem claim_C10_witness :
    retry (fun _ => (Except.ok 7 : Except String ℕ)) (-2) (1/2) 2
      = (Except.error none, 0, []) :=
  claim_C10 _ (-2) (1/2) 2 (by norm_num)

/-- Success trace of `retryAux`: if invocations `i, ..., i+k-2` fail and
invocation `i+k-1` succeeds with `k ≤ fuel`, the trace returns the success
value after exactly `k` calls and sleeps `delay·backoff^0, ...,
delay·backoff^(k-2)`. -/
theorem retryAux_success {α E : Type} (out : ℕ → Except E α) (backoff : ℚ) (v : α) :
    ∀ (k i fuel : ℕ) (delay : ℚ), 1 ≤ k → k ≤ fuel →
    (∀ j, j < k - 1 → ∃ e, out (i + j) = Except.error e) →
    out (i + (k - 1)) = Except.ok v →
    retryAux out backoff i fuel delay
      = (Except.ok v, k, (List.range (k - 1)).map fun j => delay * backoff ^ j) := by
  intro k
  induction k with
  | zero => intro i fuel delay h1; omega
  | succ k ih =>
    intro i fuel delay h1 hk herr hok
    obtain ⟨f, rfl⟩ : ∃ f, fuel = f + 1 := ⟨fuel - 1, by omega⟩
    rcases Nat.eq_zero_or_pos k with hk0 | hkpos
    · subst hk0
      have hok' : out i = Except.ok v := by simpa using hok
      simp [retryAux, hok']
    · obtain ⟨e0, he0⟩ : ∃ e, out i = Except.error e := by
        simpa using herr 0 (by omega)
      have hf : f ≠ 0 := by omega
      have herr' : ∀ j, j < k - 1 → ∃ e, out (i + 1 + j) = Except.error e := by
        intro j hj
        have := herr (j + 1) (by omega)
        rwa [show i + (j + 1) = i + 1 + j by omega] at this
      have hok' : out (i + 1 + (k - 1)) = Except.ok v := by
        rwa [show i + 1 + (k - 1) = i + (k + 1 - 1) by omega]
      have ihres := ih (i + 1) f (delay * backoff) hkpos (by omega) herr' hok'
      have hlist : delay :: (List.range (k - 1)).map
            (fun j => delay * backoff * backoff ^ j)
          = (List.range k).map fun j => delay * backoff ^ j := by
        obtain ⟨m, rfl⟩ : ∃ m, k = m + 1 := ⟨k - 1, by omega⟩
        rw [List.range_succ_eq_map, List.map_cons, List.map_map]
        simp only [Nat.add_sub_cancel]
        congr 1
        · norm_num
        · apply List.map_congr_left
          intro j _
          simp only [Function.comp_apply, Nat.succ_eq_add_one, pow_succ]
          ring
      simp only [retryAux, he0, hf, if_false, ihres, Nat.add_sub_cancel]
      exact Prod.ext rfl (Prod.ext rfl hlist)

/-- Exhaustion trace of `retryAux`: if invocations `i, ..., i+fuel-1` all
fail, the trace raises the wrapped last error after exactly `fuel` calls and
`fuel - 1` sleeps. -/
theorem retryAux_exhaust {α E : Type} (out : ℕ → Except E α) (backoff : ℚ)
    (err : ℕ → E) :
    ∀ (fuel i : ℕ) (delay : ℚ), 1 ≤ fuel →
    (∀ j, j < fuel → out (i + j) = Except.error (err (i + j))) →
    retryAux out backoff i fuel delay
      = (Except.error (some (err (i + (fuel - 1)))), fuel,
         (List.range (fuel - 1)).map fun j => delay * backoff ^ j) := by
  intro fuel
  induction fuel with
  | zero => intro i delay h1; omega
  | succ f ih =>
    intro i delay h1 herr
    have he0 : out i = Except.error (err i) := by simpa using herr 0 (by omega)
    rcases Nat.eq_zero_or_pos f with hf0 | hfpos
    · subst hf0
      simp [retryAux, he0]
    · have hf : f ≠ 0 := by omega
      have herr' : ∀ j, j < f → out (i + 1 + j) = Except.error (err (i + 1 + j)) := by
        intro j hj
        have := herr (j + 1) (by omega)
        rwa [show i + (j + 1) = i + 1 + j by omega] at this
      have ihres := ih (i + 1) (delay * backoff) hfpos herr'
      have hidx : i + 1 + (f - 1) = i + f := by omega
      have hlist : delay :: (List.range (f - 1)).map
            (fun j => delay * backoff * backoff ^ j)
          = (List.range f).map fun j => delay * backoff ^ j := by
        obtain ⟨m, rfl⟩ : ∃ m, f = m + 1 := ⟨f - 1, by omega⟩
        rw [List.range_succ_eq_map, List.map_cons, List.map_map]
        simp only [Nat.add_sub_cancel]
        congr 1
        · norm_num
        · apply List.map_congr_left
          intro j _
          simp only [Function.comp_apply, Nat.succ_eq_add_one, pow_succ]
          ring
      simp only [retryAux, he0, hf, if_false, ihres, hidx, Nat.add_sub_cancel]
      exact Prod.ext rfl (Prod.ext rfl hlist)

/-- Claim C2: for a zero-argument operation that fails on its first `k-1`
invocations and succeeds on invocation `k ≤ tries`, `retry` returns the
success value after exactly `k` invocations and `k-1` sleeps, the `i`-th
sleep lasting `delay · backoff^(i-1)`; for an operation failing on all
`tries ≥ 1` invocations, `retry` raises one `RetryError` wrapping the last
underlying error, after exactly `tries` invocations and `tries - 1`
sleeps. -/
theorem claim_C2 {α E : Type} (out : ℕ → Except E α) (err : ℕ → E) (v : α)
    (delay backoff : ℚ) (k tries : ℕ) :
    (1 ≤ k → k ≤ tries → (∀ i, i < k - 1 → out i = Except.error (err i)) →
      out (k - 1) = Except.ok v →
      retry out (tries : ℤ) delay backoff
        = (Except.ok v, k, (List.range (k - 1)).map fun i => delay * backoff ^ i))
    ∧ (1 ≤ tries → (∀ i, i < tries → out i = Except.error (err i)) →
      retry out (tries : ℤ) delay backoff
        = (Except.error (some (err (tries - 1))), tries,
           (List.range (tries - 1)).map fun i => delay * backoff ^ i)) := by
  have htn : ((tries : ℤ)).toNat = tries := Int.toNat_natCast tries
  constructor
  · intro h1 hk herr hok
    unfold retry
    rw [htn]
    exact retryAux_success out backoff v k 0 tries delay h1 hk
      (fun j hj => ⟨err j, by simpa using herr j hj⟩) (by simpa using hok)
  · intro h1 herr
    unfold retry
    rw [htn]
    have := retryAux_exhaust out backoff err tries 0 delay h1
      (fun j hj => by simpa using herr j hj)
    simpa using this

/-- Witness for C2: an operation failing once then succeeding, with
`tries = 3`, `delay = 1/2`, `backoff = 2`: one sleep of 1/2, two calls,
success value returned. -/
theorem claim_C2_witness :
    retry (fun i => if i = 0 then (Except.error "e0" : Except String ℕ)
        else Except.ok 42) ((3:ℕ) : ℤ) (1/2) 2
      = (Except.ok 42, 2, (List.range 1).map fun i => (1/2 : ℚ) * 2 ^ i) :=
  (claim_C2 (fun i => if i = 0 then Except.error "e0" else Except.ok 42)
      (fun _ => "e0") 42 (1/2) 2 2 3).1 (by norm_num) (by norm_num)
    (fun i hi => by
      have hi0 : i = 0 := by omega
      subst hi0
      rfl)
    rfl

/-- Claim C4: the pre-correction buy amount is the base amount 5000 with no
position (balance ≤ 0 or average price ≤ 0) and with a position at
`cur_price ≥ avg_price`; with a position at `cur_price < avg_price` it is
`5000 · (1 + min(max((avg-cur)/avg·100, 0), 5)/5)`, between 1× and 2× base;
exactly 10000 at `(avg, cur) = (100, 95)`, exactly 6000 at `(100, 99)`, and
exactly 5000 at `(100, 100)` and `(100, 101)`. -/
theorem claim_C4 (bal avg cur : ℚ) :
    (bal ≤ 0 ∨ avg ≤ 0 → buyAmountRaw bal avg cur = 5000)
    ∧ (0 < bal → 0 < avg → avg ≤ cur → buyAmountRaw bal avg cur = 5000)
    ∧ (0 < bal → 0 < avg → cur < avg →
        buyAmountRaw bal avg cur
          = 5000 * (1 + min (max ((avg - cur)/avg * 100) 0) 5 / 5)
        ∧ 5000 ≤ buyAmountRaw bal avg cur
        ∧ buyAmountRaw bal avg cur ≤ 10000)
    ∧ buyAmountRaw 1 100 95 = 10000
    ∧ buyAmountRaw 1 100 99 = 6000
    ∧ buyAmountRaw 1 100 100 = 5000
    ∧ buyAmountRaw 1 100 101 = 5000 := by
  refine ⟨fun h => ?_, fun hb ha hc => ?_, fun hb ha hc => ?_, ?_, ?_, ?_, ?_⟩
  · unfold buyAmountRaw BASE_AMOUNT
    rw [if_neg (by rcases h with h | h <;> rintro ⟨h1, h2⟩ <;> linarith)]
  · unfold buyAmountRaw BASE_AMOUNT
    rw [if_pos ⟨hb, ha⟩, if_neg (not_lt.mpr hc)]
  · have heq : buyAmountRaw bal avg cur
        = 5000 * (1 + max 0 (min ((avg - cur)/avg * 100) 5) / 5) := by
      unfold buyAmountRaw BASE_AMOUNT
      rw [if_pos ⟨hb, ha⟩, if_pos hc]
    have h1 : 0 ≤ max 0 (min ((avg - cur)/avg * 100) 5) := le_max_left 0 _
    have h2 : max 0 (min ((avg - cur)/avg * 100) 5) ≤ 5 :=
      max_le (by norm_num) (min_le_right _ 5)
    refine ⟨by rw [heq, max_min_swap], by rw [heq]; nlinarith, by rw [heq]; nlinarith⟩
  · unfold buyAmountRaw BASE_AMOUNT
    rw [if_pos (by norm_num), if_pos (by norm_num)]
    rw [show ((100:ℚ) - 95)/100 * 100 = 5 by norm_num]
    rw [min_self, max_eq_right (by norm_num : (0:ℚ) ≤ 5)]
    norm_num
  · unfold buyAmountRaw BASE_AMOUNT
    rw [if_pos (by norm_num), if_pos (by norm_num)]
    rw [show ((100:ℚ) - 99)/100 * 100 = 1 by norm_num]
    rw [min_eq_left (by norm_num : (1:ℚ) ≤ 5), max_eq_right (by norm_num : (0:ℚ) ≤ 1)]
    norm_num
  · unfold buyAmountRaw BASE_AMOUNT
    rw [if_pos (by norm_num), if_neg (by norm_num)]
  · unfold buyAmountRaw BASE_AMOUNT
    rw [if_pos (by norm_num), if_neg (by norm_num)]

/-- Witness for C4: the scaled-sizing conjunct instantiated at
`(bal, avg, cur) = (1, 100, 98)`. -/
theorem claim_C4_witness :
    buyAmountRaw 1 100 98
      = 5000 * (1 + min (max ((100 - 98)/100 * 100) 0) 5 / 5)
    ∧ 5000 ≤ buyAmountRaw 1 100 98
    ∧ buyAmountRaw 1 100 98 ≤ 10000 :=
  (claim_C4 1 100 98).2.2.1 (by norm_num) (by norm_num) (by norm_num)

/-- Counterexample to C6 as stated: with a raw amount of 3000, minimum order
value `min_total = 5000.5` and ample balance, the code sets the amount to
`float(int(min_total)) = 5000`, which is not `min_total` and is still below
it — the amount is floored to the truncation of `min_total`, not raised to
`min_total` itself. -/
theorem claim_C6_counterexample :
    adjustAmount 3000 (10001/2) (10^6) = some 5000
    ∧ (5000:ℚ) < 10001/2 := by
  constructor
  · have hrhe : (rhe (3000:ℚ) : ℚ) = 3000 := by
      rw [show (3000:ℚ) = ((3000:ℤ):ℚ) by norm_num, rhe_intCast]
    have hpy : (pyInt (10001/2 : ℚ) : ℚ) = 5000 := by
      unfold pyInt
      rw [if_pos (by norm_num)]
      rw [show ⌊(10001/2 : ℚ)⌋ = 5000 by norm_num]
      norm_num
    have hs : adjustStage1 3000 (10001/2) = 5000 := by
      unfold adjustStage1
      rw [if_pos (by rw [hrhe]; norm_num), hpy]
    unfold adjustAmount
    rw [hs, if_neg (by norm_num)]
  · norm_num

/-- Claim C6 amended: after the sizing multiplier, the amount is rounded to
the nearest whole currency unit (`rhe`); if below `min_total` it is set to
the whole-unit truncation `int(min_total)`; if the resulting amount exceeds
the available balance it is capped to the truncation `int(krw_avail)`; and
if the capped amount is still below `min_total` the buy is skipped
(`none`), leaving no order submitted. -/
theorem claim_C6 (raw mt krw : ℚ) :
    (mt ≤ (rhe raw : ℚ) → (rhe raw : ℚ) ≤ krw →
      adjustAmount raw mt krw = some (rhe raw : ℚ))
    ∧ ((rhe raw : ℚ) < mt → (pyInt mt : ℚ) ≤ krw →
      adjustAmount raw mt krw = some (pyInt mt : ℚ))
    ∧ (mt ≤ (rhe raw : ℚ) → krw < (rhe raw : ℚ) → mt ≤ (pyInt krw : ℚ) →
      adjustAmount raw mt krw = some (pyInt krw : ℚ))
    ∧ (mt ≤ (rhe raw : ℚ) → krw < (rhe raw : ℚ) → (pyInt krw : ℚ) < mt →
      adjustAmount raw mt krw = none)
    ∧ ((rhe raw : ℚ) < mt → krw < (pyInt mt : ℚ) → mt ≤ (pyInt krw : ℚ) →
      adjustAmount raw mt krw = some (pyInt krw : ℚ))
    ∧ ((rhe raw : ℚ) < mt → krw < (pyInt mt : ℚ) → (pyInt krw : ℚ) < mt →
      adjustAmount raw mt krw = none) := by
  refine ⟨fun h1 h2 => ?_, fun h1 h2 => ?_, fun h1 h2 h3 => ?_, fun h1 h2 h3 => ?_,
    fun h1 h2 h3 => ?_, fun h1 h2 h3 => ?_⟩
  all_goals
    unfold adjustAmount adjustStage1
  · rw [if_neg (not_lt.mpr h1), if_neg (not_lt.mpr h2)]
  · rw [if_pos h1, if_neg (not_lt.mpr h2)]
  · rw [if_neg (not_lt.mpr h1), if_pos h2, if_neg (not_lt.mpr h3)]
  · rw [if_neg (not_lt.mpr h1), if_pos h2, if_pos h3]
  · rw [if_pos h1, if_pos h2, if_neg (not_lt.mpr h3)]
  · rw [if_pos h1, if_pos h2, if_pos h3]

/-- Evaluation of the sell decision at a concrete profitable position:
price 100, average 90, balance 100, `min_total` 5000, take-profit 1%.
The 10% volume (10 coins, notional 1000) is below `min_total`, so the
volume is raised to the minimum-notional quantity 50. -/
theorem sellDecision_eval_example :
    sellDecision 100 90 100 5000 1 = SellAction.submit 50 := by
  unfold sellDecision
  rw [if_neg (by norm_num)]
  have hpnl : ¬(effective_pnl_pct 100 90 FEE_RATE < 1) := by
    unfold effective_pnl_pct FEE_RATE
    rw [if_neg (by norm_num)]
    norm_num
  rw [if_neg hpnl]
  have e1 : round8 ((100:ℚ) * (10/100)) = 10 := by
    rw [show (100:ℚ) * (10/100) = ((10:ℤ):ℚ) by norm_num, round8_intCast]
    norm_num
  rw [e1]
  rw [if_pos (by norm_num : (10:ℚ) * 100 < 5000)]
  have e2 : min_volume_for_krw 5000 100 = 50 := by
    unfold min_volume_for_krw
    rw [if_neg (by norm_num)]
    rw [show (5000:ℚ)/100 = ((50:ℤ):ℚ) by norm_num, round8_intCast]
    norm_num
  rw [e2]
  rw [if_pos (by norm_num : (50:ℚ) ≤ 100)]
  rw [show (50:ℚ) = ((50:ℤ):ℚ) by norm_num, round8_intCast]

/-- Claim C5: `perform_sell` submits a market sell order iff balance > 0,
average buy price > 0, fee-adjusted PnL is at least the take-profit
threshold, and the minimum-notional requirement can be met within the
balance (either the 10% notional already reaches `min_total`, or the
minimum-notional quantity fits in the balance); the submitted volume is
`round(0.10·balance, 8)`, raised to the minimum-notional quantity exactly
when the 10% notional is below `min_total`; and it never exceeds the
balance. -/
theorem claim_C5 (cur avg bal mt tp : ℚ) :
    ((∃ v, sellDecision cur avg bal mt tp = SellAction.submit v)
      ↔ (0 < bal ∧ 0 < avg ∧ tp ≤ effective_pnl_pct cur avg FEE_RATE
          ∧ (mt ≤ round8 (bal * (10/100)) * cur ∨ min_volume_for_krw mt cur ≤ bal)))
    ∧ ∀ v, sellDecision cur avg bal mt tp = SellAction.submit v →
        v ≤ bal
        ∧ (round8 (bal * (10/100)) * cur < mt →
            v = round8 (min_volume_for_krw mt cur))
        ∧ (mt ≤ round8 (bal * (10/100)) * cur → v = round8 (bal * (10/100))) := by
  unfold sellDecision
  split_ifs with h1 h2 h3 h4
  · refine ⟨⟨fun h => ?_, fun h => ?_⟩, fun v hv => by cases hv⟩
    · obtain ⟨v, hv⟩ := h
      cases hv
    · exfalso
      obtain ⟨hb, ha, -, -⟩ := h
      rcases h1 with h | h <;> linarith
  · push_neg at h1
    refine ⟨⟨fun h => ?_, fun h => ?_⟩, fun v hv => by cases hv⟩
    · obtain ⟨v, hv⟩ := h
      cases hv
    · obtain ⟨-, -, htp, -⟩ := h
      exact absurd h2 (not_lt.mpr htp)
  · push_neg at h1
    refine ⟨⟨fun _ => ⟨h1.1, h1.2, not_lt.mp h2, Or.inr h4⟩, fun _ => ⟨_, rfl⟩⟩, ?_⟩
    intro v hv
    injection hv with hinj
    subst hinj
    refine ⟨?_, fun _ => rfl, fun h' => absurd h3 (not_lt.mpr h')⟩
    rcases le_or_lt cur 0 with hcz | hcz
    · have h0 : min_volume_for_krw mt cur = 0 := by
        unfold min_volume_for_krw
        rw [if_pos hcz]
      rw [h0, round8_zero]
      linarith [h1.1]
    · have h0 : min_volume_for_krw mt cur = round8 (mt / cur) := by
        unfold min_volume_for_krw
        rw [if_neg (not_le.mpr hcz)]
      rw [h0, round8_idem, ← h0]
      exact h4
  · refine ⟨⟨fun h => ?_, fun h => ?_⟩, fun v hv => by cases hv⟩
    · obtain ⟨v, hv⟩ := h
      cases hv
    · obtain ⟨-, -, -, hor⟩ := h
      rcases hor with h | h
      · exact absurd h3 (not_lt.mpr h)
      · exact (h4 h).elim
  · push_neg at h1
    refine ⟨⟨fun _ => ⟨h1.1, h1.2, not_lt.mp h2, Or.inl (not_lt.mp h3)⟩,
      fun _ => ⟨_, rfl⟩⟩, ?_⟩
    intro v hv
    injection hv with hinj
    subst hinj
    exact ⟨round8_tenth_le bal h1.1, fun h' => absurd h' h3, fun _ => rfl⟩

/-- Witness for C5 at `(cur, avg, bal, mt, tp) = (100, 90, 100, 5000, 1)`. -/
theorem claim_C5_witness :
    sellDecision 100 90 100 5000 1 = SellAction.submit 50 ∧ (50:ℚ) ≤ 100 :=
  ⟨sellDecision_eval_example,
   ((claim_C5 100 90 100 5000 1).2 50 sellDecision_eval_example).1⟩

/-- Counterexample to C1 as stated: at price 70000 with balance 0.5,
`min_total` 5000 and a comfortably profitable position, the sell path raises
the volume to `round(5000/70000, 8) = 0.07142857`, whose notional
4999.9999 is strictly below `min_total` — the submitted notional is only
within one 8-decimal rounding ulp of `min_total`, not at least it. -/
theorem claim_C1_counterexample :
    sellDecision 70000 60000 (1/2) 5000 1 = SellAction.submit (7142857/10^8)
    ∧ (7142857:ℚ)/10^8 * 70000 < 5000 := by
  constructor
  · unfold sellDecision
    rw [if_neg (by norm_num)]
    have hpnl : ¬(effective_pnl_pct 70000 60000 FEE_RATE < 1) := by
      unfold effective_pnl_pct FEE_RATE
      rw [if_neg (by norm_num)]
      norm_num
    rw [if_neg hpnl]
    have e1 : round8 ((1/2:ℚ) * (10/100)) = 1/2 * (10/100) :=
      round8_eq_self _ 5000000 (by norm_num)
    rw [e1]
    rw [if_pos (by norm_num : (1/2:ℚ) * (10/100) * 70000 < 5000)]
    have e2 : min_volume_for_krw 5000 70000 = 7142857/10^8 := by
      unfold min_volume_for_krw
      rw [if_neg (by norm_num)]
      rw [round8_eval_lt ((5000:ℚ)/70000) 7142857 (by norm_num) (by norm_num)]
      norm_num
    rw [e2]
    rw [if_pos (by norm_num : (7142857:ℚ)/10^8 ≤ 1/2)]
    rw [show (7142857:ℚ)/10^8 = ((7142857:ℤ):ℚ)/10^8 by norm_num, round8_intDiv]
  · norm_num

/-- Claim C1 amended: the buy path recomputes at the raw current price when
the limit-price notional is below `min_total` and recomputes the volume from
`min_total + 10` when the notional is still at or below `min_total`; for a
positive amount, a positive `min_total` and a current price in
`(0, 2·10⁹]` (so that half an 8-decimal volume ulp is worth at most the 10
safety margin) the submitted limit-buy notional is at least `min_total`.
The sell-path notional is at least `min_total` minus the 8-decimal rounding
slack `price · 5·10⁻⁹` (it can fall strictly below `min_total` by up to that
slack, see the counterexample). -/
theorem claim_C1 :
    (∀ cur amount mt : ℚ, 0 < cur → cur ≤ 2 * 10^9 → 0 < mt → 0 ≤ amount →
      mt ≤ (buyOrderParams cur amount mt).1 * (buyOrderParams cur amount mt).2)
    ∧ (∀ cur avg bal mt tp v : ℚ, 0 < cur →
      sellDecision cur avg bal mt tp = SellAction.submit v →
      mt - cur * (1/(2 * 10^8)) ≤ v * cur) := by
  constructor
  · intro cur amount mt hc hc2 hmt ha
    by_cases h1 : buyLimitPrice0 cur * buyVolume0 cur amount < mt
    · have hp : buyPrice1 cur amount mt = cur := by
        unfold buyPrice1
        rw [if_pos h1]
      have hv : buyVolume1 cur amount mt = round8 (amount / cur) := by
        unfold buyVolume1
        rw [if_pos h1]
      unfold buyOrderParams
      rw [hp, hv]
      by_cases hB : cur * round8 (amount / cur) ≤ mt
      · rw [if_pos hB]
        dsimp only
        have hge := mul_round8_div_ge (mt + 10) cur hc
        have hsl : cur * (1/(2 * 10^8)) ≤ 10 := by linarith
        linarith
      · rw [if_neg hB]
        dsimp only
        linarith [not_le.mp hB]
    · have hp : buyPrice1 cur amount mt = buyLimitPrice0 cur := by
        unfold buyPrice1
        rw [if_neg h1]
      have hv : buyVolume1 cur amount mt = buyVolume0 cur amount := by
        unfold buyVolume1
        rw [if_neg h1]
      unfold buyOrderParams
      rw [hp, hv]
      by_cases hB : buyLimitPrice0 cur * buyVolume0 cur amount ≤ mt
      · rw [if_pos hB]
        dsimp only
        have heq : buyLimitPrice0 cur * buyVolume0 cur amount = mt :=
          le_antisymm hB (not_lt.mp h1)
        have hv0 : 0 ≤ buyVolume0 cur amount := by
          unfold buyVolume0
          apply round8_nonneg
          apply div_nonneg ha
          exact le_of_lt (lt_of_lt_of_le (by norm_num : (0:ℚ) < 1/10^12)
            (le_max_right _ _))
        have hlp_pos : 0 < buyLimitPrice0 cur := by
          by_contra hneg
          push_neg at hneg
          nlinarith
        have hlp_le : buyLimitPrice0 cur ≤ cur := buyLimitPrice0_le cur
        have hge := mul_round8_div_ge (mt + 10) (buyLimitPrice0 cur) hlp_pos
        have hsl : buyLimitPrice0 cur * (1/(2 * 10^8)) ≤ 10 := by linarith
        linarith
      · rw [if_neg hB]
        dsimp only
        linarith [not_le.mp hB]
  · intro cur avg bal mt tp v hc hv
    unfold sellDecision at hv
    split_ifs at hv with h1 h2 h3 h4
    · injection hv with hinj
      subst hinj
      have h0 : min_volume_for_krw mt cur = round8 (mt / cur) := by
        unfold min_volume_for_krw
        rw [if_neg (not_le.mpr hc)]
      rw [h0, round8_idem]
      have hge := mul_round8_div_ge mt cur hc
      linarith [mul_comm (round8 (mt / cur)) cur, hge]
    · injection hv with hinj
      subst hinj
      have h5 := not_lt.mp h3
      have hpos : 0 ≤ cur * (1/(2 * 10^8)) := by positivity
      linarith

/-- Witness for C1: the buy conjunct at `(cur, amount, mt) = (100000, 5000,
5000)` (a case that walks through both corrections) and the sell conjunct at
the concrete decision `(100, 90, 100, 5000, 1)`. -/
theorem claim_C1_witness :
    (5000:ℚ) ≤ (buyOrderParams 100000 5000 5000).1 * (buyOrderParams 100000 5000 5000).2
    ∧ (5000:ℚ) - 100 * (1/(2 * 10^8)) ≤ 50 * 100 :=
  ⟨claim_C1.1 100000 5000 5000 (by norm_num) (by norm_num) (by norm_num) (by norm_num),
   claim_C1.2 100 90 100 5000 1 50 (by norm_num) sellDecision_eval_example⟩

/-- Witness for C6: the `min_total` floor case at
`(raw, mt, krw) = (3000, 5000, 10^6)`. -/
theorem claim_C6_witness :
    adjustAmount 3000 5000 (10^6) = some (pyInt 5000 : ℚ) :=
  (claim_C6 3000 5000 (10^6)).2.1
    (by rw [show (3000:ℚ) = ((3000:ℤ):ℚ) by norm_num, rhe_intCast]; norm_num)
    (by unfold pyInt
        rw [if_pos (by norm_num)]
        rw [show ⌊(5000:ℚ)⌋ = 5000 by norm_num]
        norm_num)

/-- Claim C3: for every behavior of the exchange collaborator — every
combination of success and failure (including exhausted-retry `RetryError`s)
at every call site of the round — one execution of the scheduling-loop body
never propagates an exception: `roundLoopBody` always returns `ok`.
Moreover a failure that is not handled inside a step terminates the round
early at the round boundary: a failing sell-side price fetch makes
`trade_once` itself fail with exactly that error (which the loop body then
catches and logs). -/
theorem claim_C3 {E : Type} (b : ExchangeRound E) (take_profit_pct : ℚ) :
    roundLoopBody b take_profit_pct = Except.ok ()
    ∧ (∀ e, b.sell_price = Except.error e →
        tradeOnceM b take_profit_pct = Except.error e) := by
  constructor
  · unfold roundLoopBody
    cases tradeOnceM b take_profit_pct <;> rfl
  · intro e he
    unfold tradeOnceM performSellM
    rw [he]
    rfl

/-- A concrete exchange behavior whose sell-side price fetch exhausts its
retries while every other call succeeds. -/
def sampleRound : ExchangeRound String where
  sell_price := Except.error "RetryError"
  sell_chance := Except.ok ⟨5000, 10000, 100, 1, 5000⟩
  sell_order := Except.ok ()
  buy_price := Except.ok 100
  buy_chance := Except.ok ⟨5000, 10000, 100, 1, 5000⟩
  buy_limit_order := Except.ok ()
  buy_order_done := Except.ok true
  buy_cancel := Except.ok ()
  buy_market_order := Except.ok ()
  buy_filled_info := Except.ok (10, 5000)
  buy_price2 := Except.ok 100
  sum_chance := Except.ok ⟨5000, 10000, 100, 1, 5000⟩
  sum_price := Except.ok 100

/-- Witness for C3 at the concrete behavior `sampleRound`. -/
theorem claim_C3_witness :
    roundLoopBody sampleRound 1 = Except.ok ()
    ∧ tradeOnceM sampleRound 1 = Except.error "RetryError" :=
  ⟨(claim_C3 sampleRound 1).1, (claim_C3 sampleRound 1).2 "RetryError" rfl⟩

end BithumbTrade
